import Mathlib

/-!
Verification development for the Live2D Cubism Web Framework's
parameter/override state engine (`src/model/cubismmodel.ts`).

The TypeScript class `CubismModel` is embedded shallowly:

* JavaScript numbers are modelled as rationals (`ℚ`); the claims under
  study are about copying, branching and exact modular/clamping
  arithmetic, all of which the source performs with plain IEEE
  operations whose algebraic shape is what the spec describes.
* The mutable object state is passed explicitly: every TypeScript
  method that mutates `this` becomes a function `CubismModel → ... →
  CubismModel` (or returns a pair when the method also yields a value).
* `csmVector<T>` fields become `List T`; all writes in the source are
  per-slot field writes through `.at(index)`, which `listModify` models.
  The one exception is `_userCullings`: in `initialize` a single
  `DrawableCullingData` object is created *before* the drawable loop and
  the same reference is pushed for every drawable, so reference sharing
  is observable.  `_userCullings` is therefore modelled as a list of
  addresses (`userCullings`) into an explicit allocation list
  (`cullingHeap`); every other record vector receives a fresh object per
  slot in the source and needs no heap.
* `csmMap<K, V>` is not under `src/`; it is modelled from the spec
  (§4.1: an "absent identifier" overflow map with idempotent insert and
  default-value slots) as an association list with standard semantics.
* `CubismMath.mod` / `CubismMath.clamp` and the `Live2DCubismCore`
  bit-flag utilities are likewise not under `src/` and are modelled from
  the spec where noted.
-/

/-- RGBA color record (`CubismTextureColor`). -/
structure TextureColor where
  r : ℚ
  g : ℚ
  b : ℚ
  a : ℚ
deriving DecidableEq, Repr, Inhabited

/-- `DrawableColorData`: per-drawable override flag plus RGBA color. -/
structure DrawableColorData where
  isOverridden : Bool
  color : TextureColor
deriving DecidableEq, Repr, Inhabited

/-- `PartColorData`: per-part override flag plus RGBA color. -/
structure PartColorData where
  isOverridden : Bool
  color : TextureColor
deriving DecidableEq, Repr, Inhabited

/-- `DrawableCullingData`: per-drawable culling override record. -/
structure DrawableCullingData where
  isOverridden : Bool
  isCulling : Bool
deriving DecidableEq, Repr, Inhabited

/-- `ParameterRepeatData`: per-parameter repeat override record. -/
structure ParameterRepeatData where
  isOverridden : Bool
  isParameterRepeated : Bool
deriving DecidableEq, Repr, Inhabited

/-!  ## `csmMap` model

Modelled from the spec: `csmMap` (`src/type/csmmap.ts` is not under
`src/`) is the "absent-identifier overflow map" of §4.1 — an
association container with key lookup (`isExist`/`getValue`), in-place
update-or-insert (`setValue`), and appending of a default-value slot
(`appendKey`).  It is modelled as a list of key/value pairs. -/

def csmMapIsExist [DecidableEq K] (m : List (K × V)) (k : K) : Bool :=
  m.any (fun kv => kv.1 = k)

def csmMapGetValue [DecidableEq K] (m : List (K × V)) (k : K) (dflt : V) : V :=
  match m.find? (fun kv => kv.1 = k) with
  | some kv => kv.2
  | none => dflt

def csmMapSetValue [DecidableEq K] : List (K × V) → K → V → List (K × V)
  | [], k, v => [(k, v)]
  | kv :: rest, k, v => if kv.1 = k then (k, v) :: rest else kv :: csmMapSetValue rest k v

def csmMapAppendKey [DecidableEq K] (m : List (K × V)) (k : K) (dflt : V) : List (K × V) :=
  m ++ [(k, dflt)]

/-- Apply `f` to the element at position `i`; out of range, no change.
    Models a field write through `csmVector.at(i)`. -/
def listModify : List α → Nat → (α → α) → List α
  | [], _, _ => []
  | x :: xs, 0, f => f x :: xs
  | x :: xs, n + 1, f => x :: listModify xs n f

/-!  ## Arithmetic helpers absent from `src/` -/

/-- Floor-based modulo on rationals. -/
def qmod (x y : ℚ) : ℚ := x - y * (⌊x / y⌋ : ℚ)

/-- Modelled from the spec: `CubismMath.mod` (not under `src/`).  §4.4
    step 3 wraps by modulo arithmetic and the result is "not a finite
    number" exactly in the degenerate-span case, which the rational
    model renders as a zero divisor (`none`). -/
def cmMod (x y : ℚ) : Option ℚ :=
  if y = 0 then none else some (qmod x y)

/-- Modelled from the spec: `CubismMath.clamp` (not under `src/`);
    §4.4 "clamp: `value = max(min(value, max), min)`". -/
def cmClamp (value minValue maxValue : ℚ) : ℚ :=
  max (min value maxValue) minValue

/-- Modelled from the spec: `Live2DCubismCore.Utils.hasIsDoubleSidedBit`
    (the deformation core is an external collaborator).  §4.3: culling
    defaults on exactly when the "double-sided" constant bit is absent;
    the concrete bit position is irrelevant to the claims. -/
def hasIsDoubleSidedBit (constantFlags : Nat) : Bool :=
  constantFlags.testBit 2

/-!  ## The snapshot (`Live2DCubismCore.Model`)

Flat arrays exposed by the deformation core.  Identifier handles are
modelled as naturals (the identifier registry interns name strings into
stable handles compared by identity, so the raw id arrays and the
interned `_parameterIds`/`_partIds`/`_drawableIds` vectors carry the
same handles). -/

structure CoreModel where
  parameterIds : List Nat
  parameterMinimumValues : List ℚ
  parameterMaximumValues : List ℚ
  parameterRepeats : List Int
  parameterValues : List ℚ
  partIds : List Nat
  partOpacities : List ℚ
  drawableIds : List Nat
  drawableConstantFlags : List Nat
  drawableMultiplyColors : List ℚ
  drawableScreenColors : List ℚ
  drawableParentPartIndices : List Int
deriving DecidableEq, Repr

/-- `_model.parameters.count` (all parameter arrays have this length). -/
def CoreModel.parameterCount (m : CoreModel) : Nat := m.parameterIds.length

/-- `_model.parts.count`. -/
def CoreModel.partCount (m : CoreModel) : Nat := m.partIds.length

/-- `_model.drawables.count`. -/
def CoreModel.drawableCount (m : CoreModel) : Nat := m.drawableIds.length

/-!  ## The `CubismModel` state -/

structure CubismModel where
  model : CoreModel
  savedParameters : List ℚ
  isOverriddenParameterRepeat : Bool
  isOverriddenModelMultiplyColors : Bool
  isOverriddenModelScreenColors : Bool
  isOverriddenCullings : Bool
  modelOpacity : ℚ
  userParameterRepeatDataList : List ParameterRepeatData
  userMultiplyColors : List DrawableColorData
  userScreenColors : List DrawableColorData
  /-- Allocation list for `DrawableCullingData` objects; `userCullings`
      stores addresses into it (see the header comment). -/
  cullingHeap : List DrawableCullingData
  userCullings : List Nat
  userPartMultiplyColors : List PartColorData
  userPartScreenColors : List PartColorData
  partChildDrawables : List (List Nat)
  parameterIds : List Nat
  partIds : List Nat
  drawableIds : List Nat
  notExistPartId : List (Nat × Int)
  notExistPartOpacities : List (Int × ℚ)
  notExistParameterId : List (Nat × Int)
  notExistParameterValues : List (Int × ℚ)
deriving DecidableEq, Repr

/-- The `CubismModel` constructor: stores the snapshot and initialises
    every flag and container; note `_isOverriddenParameterRepeat` is
    initialised to `true` in the source. -/
def CubismModel.construct (model : CoreModel) : CubismModel where
  model := model
  savedParameters := []
  isOverriddenParameterRepeat := true
  isOverriddenModelMultiplyColors := false
  isOverriddenModelScreenColors := false
  isOverriddenCullings := false
  modelOpacity := 1
  userParameterRepeatDataList := []
  userMultiplyColors := []
  userScreenColors := []
  cullingHeap := []
  userCullings := []
  userPartMultiplyColors := []
  userPartScreenColors := []
  partChildDrawables := []
  parameterIds := []
  partIds := []
  drawableIds := []
  notExistPartId := []
  notExistPartOpacities := []
  notExistParameterId := []
  notExistParameterValues := []

/-- First index `i < count` with `ids.at(i)` equal to `id` — the linear
    scans at the head of `getParameterIndex` / `getPartIndex` /
    `getDrawableIndex` (an out-of-range `.at` yields `undefined`, which
    never compares equal, hence the `Option` comparison). -/
def findIdIndex (ids : List Nat) (count : Nat) (id : Nat) : Option Nat :=
  (List.range count).find? (fun i => ids.get? i == some id)

def CubismModel.getParameterCount (s : CubismModel) : Nat :=
  s.model.parameterCount

def CubismModel.getPartCount (s : CubismModel) : Nat :=
  s.model.partCount

def CubismModel.getDrawableCount (s : CubismModel) : Nat :=
  s.model.drawableCount

/-- `getParameterIndex`: linear scan, then the absent-identifier
    overflow map, else allocate `count + size` and append a default
    value slot. -/
def CubismModel.getParameterIndex (s : CubismModel) (parameterId : Nat) :
    CubismModel × Int :=
  match findIdIndex s.parameterIds s.model.parameterCount parameterId with
  | some i => (s, (i : Int))
  | none =>
    if csmMapIsExist s.notExistParameterId parameterId then
      (s, csmMapGetValue s.notExistParameterId parameterId 0)
    else
      let parameterIndex : Int :=
        (s.model.parameterCount : Int) + (s.notExistParameterId.length : Int)
      ({ s with
          notExistParameterId :=
            csmMapSetValue s.notExistParameterId parameterId parameterIndex
          notExistParameterValues :=
            csmMapAppendKey s.notExistParameterValues parameterIndex 0 },
       parameterIndex)

/-- `getPartIndex`: same structure as `getParameterIndex`, with the
    default opacity slot appended to `_notExistPartOpacities`. -/
def CubismModel.getPartIndex (s : CubismModel) (partId : Nat) :
    CubismModel × Int :=
  match findIdIndex s.partIds s.model.partCount partId with
  | some i => (s, (i : Int))
  | none =>
    if csmMapIsExist s.notExistPartId partId then
      (s, csmMapGetValue s.notExistPartId partId 0)
    else
      let partIndex : Int :=
        (s.model.partCount : Int) + (s.notExistPartId.length : Int)
      ({ s with
          notExistPartId := csmMapSetValue s.notExistPartId partId partIndex
          notExistPartOpacities :=
            csmMapAppendKey s.notExistPartOpacities partIndex 0 },
       partIndex)

/-- `getDrawableIndex`: linear scan only; unknown ids yield `-1`. -/
def CubismModel.getDrawableIndex (s : CubismModel) (drawableId : Nat) : Int :=
  match findIdIndex s.drawableIds s.model.drawableCount drawableId with
  | some i => (i : Int)
  | none => -1

/-!  ## Color channel plumbing

`setPartColor` and `setOverrideColorForPartColors` receive the part and
drawable color vectors as arguments; every call site passes the matched
pair (`_userPartMultiplyColors` with `_userMultiplyColors`, or the
screen equivalents).  A `ColorChannel` selector captures which pair the
caller passed. -/

inductive ColorChannel
  | multiply
  | screen
deriving DecidableEq, Repr

def CubismModel.partColors (s : CubismModel) : ColorChannel → List PartColorData
  | ColorChannel.multiply => s.userPartMultiplyColors
  | ColorChannel.screen => s.userPartScreenColors

def CubismModel.drawableColors (s : CubismModel) :
    ColorChannel → List DrawableColorData
  | ColorChannel.multiply => s.userMultiplyColors
  | ColorChannel.screen => s.userScreenColors

def CubismModel.withPartColors (s : CubismModel) :
    ColorChannel → List PartColorData → CubismModel
  | ColorChannel.multiply, l => { s with userPartMultiplyColors := l }
  | ColorChannel.screen, l => { s with userPartScreenColors := l }

def CubismModel.withDrawableColors (s : CubismModel) :
    ColorChannel → List DrawableColorData → CubismModel
  | ColorChannel.multiply, l => { s with userMultiplyColors := l }
  | ColorChannel.screen, l => { s with userScreenColors := l }

/-- Loop body of `setOverrideColorForPartColors`: for every child
    drawable, write the flag unconditionally and copy the part color
    only when the flag being written is `true`. -/
def cascadeOverrideToDrawables (children : List Nat) (value : Bool)
    (partColor : TextureColor) (drawColors : List DrawableColorData) :
    List DrawableColorData :=
  children.foldl
    (fun dc drawableIndex =>
      listModify dc drawableIndex (fun d =>
        { d with
          isOverridden := value
          color := if value then partColor else d.color }))
    drawColors

/-- `setOverrideColorForPartColors`: sets the part flag and cascades it
    (and, when `value` is `true`, the part color) onto all child
    drawables. -/
def CubismModel.setOverrideColorForPartColors (s : CubismModel)
    (ch : ColorChannel) (partIndex : Nat) (value : Bool) : CubismModel :=
  let pcs := listModify (s.partColors ch) partIndex
    (fun p => { p with isOverridden := value })
  let s1 := s.withPartColors ch pcs
  let children := s1.partChildDrawables.getD partIndex []
  let pcolor := (pcs.getD partIndex default).color
  s1.withDrawableColors ch
    (cascadeOverrideToDrawables children value pcolor (s1.drawableColors ch))

/-- `setOverrideColorForPartMultiplyColors`: writes the part flag (a
    redundant duplicate of the write inside the helper) and delegates to
    `setOverrideColorForPartColors` with the multiply pair. -/
def CubismModel.setOverrideColorForPartMultiplyColors (s : CubismModel)
    (partIndex : Nat) (value : Bool) : CubismModel :=
  let s1 := s.withPartColors ColorChannel.multiply
    (listModify (s.partColors ColorChannel.multiply) partIndex
      (fun p => { p with isOverridden := value }))
  s1.setOverrideColorForPartColors ColorChannel.multiply partIndex value

/-- `setOverrideColorForPartScreenColors`: the screen-color analogue. -/
def CubismModel.setOverrideColorForPartScreenColors (s : CubismModel)
    (partIndex : Nat) (value : Bool) : CubismModel :=
  let s1 := s.withPartColors ColorChannel.screen
    (listModify (s.partColors ColorChannel.screen) partIndex
      (fun p => { p with isOverridden := value }))
  s1.setOverrideColorForPartColors ColorChannel.screen partIndex value

/-- Channel dispatcher over the two public part-override setters. -/
def CubismModel.setOverrideColorForPart (s : CubismModel) :
    ColorChannel → Nat → Bool → CubismModel
  | ColorChannel.multiply, p, v => s.setOverrideColorForPartMultiplyColors p v
  | ColorChannel.screen, p, v => s.setOverrideColorForPartScreenColors p v

/-!  ## Color and culling resolution -/

/-- `getDrawableMultiplyColor`: the asset-authored multiply color read
    from the snapshot's flat stride-4 array. -/
def CubismModel.getDrawableMultiplyColor (s : CubismModel)
    (drawableIndex : Nat) : TextureColor :=
  let mc := s.model.drawableMultiplyColors
  { r := mc.getD (drawableIndex * 4) 0
    g := mc.getD (drawableIndex * 4 + 1) 0
    b := mc.getD (drawableIndex * 4 + 2) 0
    a := mc.getD (drawableIndex * 4 + 3) 0 }

/-- `getDrawableScreenColor`: asset-authored screen color. -/
def CubismModel.getDrawableScreenColor (s : CubismModel)
    (drawableIndex : Nat) : TextureColor :=
  let sc := s.model.drawableScreenColors
  { r := sc.getD (drawableIndex * 4) 0
    g := sc.getD (drawableIndex * 4 + 1) 0
    b := sc.getD (drawableIndex * 4 + 2) 0
    a := sc.getD (drawableIndex * 4 + 3) 0 }

def CubismModel.getOverrideFlagForModelMultiplyColors (s : CubismModel) : Bool :=
  s.isOverriddenModelMultiplyColors

def CubismModel.getOverrideFlagForModelScreenColors (s : CubismModel) : Bool :=
  s.isOverriddenModelScreenColors

def CubismModel.getOverrideFlagForDrawableMultiplyColors (s : CubismModel)
    (drawableindex : Nat) : Bool :=
  (s.userMultiplyColors.getD drawableindex default).isOverridden

def CubismModel.getOverrideFlagForDrawableScreenColors (s : CubismModel)
    (drawableindex : Nat) : Bool :=
  (s.userScreenColors.getD drawableindex default).isOverridden

def CubismModel.setOverrideFlagForModelMultiplyColors (s : CubismModel)
    (value : Bool) : CubismModel :=
  { s with isOverriddenModelMultiplyColors := value }

def CubismModel.setOverrideFlagForModelScreenColors (s : CubismModel)
    (value : Bool) : CubismModel :=
  { s with isOverriddenModelScreenColors := value }

def CubismModel.setOverrideFlagForDrawableMultiplyColors (s : CubismModel)
    (drawableindex : Nat) (value : Bool) : CubismModel :=
  let l := listModify s.userMultiplyColors drawableindex
    (fun d => { d with isOverridden := value })
  { s with userMultiplyColors := l }

def CubismModel.setOverrideFlagForDrawableScreenColors (s : CubismModel)
    (drawableindex : Nat) (value : Bool) : CubismModel :=
  let l := listModify s.userScreenColors drawableindex
    (fun d => { d with isOverridden := value })
  { s with userScreenColors := l }

/-- `getMultiplyColor`: model-wide flag or per-drawable flag selects the
    stored override color, else the asset-authored color. -/
def CubismModel.getMultiplyColor (s : CubismModel) (index : Nat) : TextureColor :=
  if s.getOverrideFlagForModelMultiplyColors ||
      s.getOverrideFlagForDrawableMultiplyColors index then
    (s.userMultiplyColors.getD index default).color
  else
    s.getDrawableMultiplyColor index

/-- `getScreenColor`: screen-color analogue of `getMultiplyColor`. -/
def CubismModel.getScreenColor (s : CubismModel) (index : Nat) : TextureColor :=
  if s.getOverrideFlagForModelScreenColors ||
      s.getOverrideFlagForDrawableScreenColors index then
    (s.userScreenColors.getD index default).color
  else
    s.getDrawableScreenColor index

/-- Dereference the culling record for a drawable
    (`_userCullings.at(index)` through the allocation list). -/
def CubismModel.cullingDataAt (s : CubismModel) (drawableIndex : Nat) :
    DrawableCullingData :=
  s.cullingHeap.getD (s.userCullings.getD drawableIndex 0) default

def CubismModel.getOverrideFlagForModelCullings (s : CubismModel) : Bool :=
  s.isOverriddenCullings

def CubismModel.setOverrideFlagForModelCullings (s : CubismModel)
    (isOverriddenCullings : Bool) : CubismModel :=
  { s with isOverriddenCullings := isOverriddenCullings }

def CubismModel.getOverrideFlagForDrawableCullings (s : CubismModel)
    (drawableIndex : Nat) : Bool :=
  (s.cullingDataAt drawableIndex).isOverridden

def CubismModel.setOverrideFlagForDrawableCullings (s : CubismModel)
    (drawableIndex : Nat) (isOverriddenCullings : Bool) : CubismModel :=
  let h := listModify s.cullingHeap (s.userCullings.getD drawableIndex 0)
    (fun c => { c with isOverridden := isOverriddenCullings })
  { s with cullingHeap := h }

/-- `getDrawableCulling`: override flags select the stored override
    value, else culling is on exactly when the double-sided bit is
    absent from the constant flags. -/
def CubismModel.getDrawableCulling (s : CubismModel) (drawableIndex : Nat) :
    Bool :=
  if s.getOverrideFlagForModelCullings ||
      s.getOverrideFlagForDrawableCullings drawableIndex then
    (s.cullingDataAt drawableIndex).isCulling
  else
    !hasIsDoubleSidedBit (s.model.drawableConstantFlags.getD drawableIndex 0)

/-- `setDrawableCulling`: writes the stored override culling value. -/
def CubismModel.setDrawableCulling (s : CubismModel) (drawableIndex : Nat)
    (isCulling : Bool) : CubismModel :=
  let h := listModify s.cullingHeap (s.userCullings.getD drawableIndex 0)
    (fun c => { c with isCulling := isCulling })
  { s with cullingHeap := h }

/-!  ## Parameter repeat flags -/

def CubismModel.getOverrideFlagForModelParameterRepeat (s : CubismModel) : Bool :=
  s.isOverriddenParameterRepeat

def CubismModel.setOverrideFlagForModelParameterRepeat (s : CubismModel)
    (isRepeat : Bool) : CubismModel :=
  { s with isOverriddenParameterRepeat := isRepeat }

def CubismModel.getOverrideFlagForParameterRepeat (s : CubismModel)
    (parameterIndex : Nat) : Bool :=
  (s.userParameterRepeatDataList.getD parameterIndex default).isOverridden

def CubismModel.setOverrideFlagForParameterRepeat (s : CubismModel)
    (parameterIndex : Nat) (value : Bool) : CubismModel :=
  let l := listModify s.userParameterRepeatDataList parameterIndex
    (fun r => { r with isOverridden := value })
  { s with userParameterRepeatDataList := l }

def CubismModel.getRepeatFlagForParameterRepeat (s : CubismModel)
    (parameterIndex : Nat) : Bool :=
  (s.userParameterRepeatDataList.getD parameterIndex default).isParameterRepeated

def CubismModel.setRepeatFlagForParameterRepeat (s : CubismModel)
    (parameterIndex : Nat) (value : Bool) : CubismModel :=
  let l := listModify s.userParameterRepeatDataList parameterIndex
    (fun r => { r with isParameterRepeated := value })
  { s with userParameterRepeatDataList := l }

/-- `getParameterRepeats`: the raw asset-authored repeat bit. -/
def CubismModel.getParameterRepeats (s : CubismModel) (parameterIndex : Nat) :
    Bool :=
  s.model.parameterRepeats.getD parameterIndex 0 != 0

/-- `isRepeat`: absent parameters never repeat; otherwise the model-wide
    or per-parameter override flag gates to the per-parameter
    `isParameterRepeated` value, else the asset-authored bit decides. -/
def CubismModel.isRepeat (s : CubismModel) (parameterIndex : Int) : Bool :=
  if csmMapIsExist s.notExistParameterValues parameterIndex then
    false
  else if s.isOverriddenParameterRepeat ||
      (s.userParameterRepeatDataList.getD parameterIndex.toNat default).isOverridden then
    (s.userParameterRepeatDataList.getD parameterIndex.toNat default).isParameterRepeated
  else
    s.model.parameterRepeats.getD parameterIndex.toNat 0 != 0

/-!  ## Parameter value resolution -/

/-- `getParameterRepeatValue`: wrap `value` into the parameter's range
    by modulo arithmetic, clamping to the exceeded bound when the
    modulo result is not a finite number. -/
def CubismModel.getParameterRepeatValue (s : CubismModel)
    (parameterIndex : Int) (value : ℚ) : ℚ :=
  if csmMapIsExist s.notExistParameterValues parameterIndex then
    value
  else
    let i := parameterIndex.toNat
    let maxValue := s.model.parameterMaximumValues.getD i 0
    let minValue := s.model.parameterMinimumValues.getD i 0
    let valueSize := maxValue - minValue
    let v1 :=
      if maxValue < value then
        match cmMod (value - maxValue) valueSize with
        | some overValue => minValue + overValue
        | none => maxValue
      else value
    if v1 < minValue then
      match cmMod (minValue - v1) valueSize with
      | some overValue => maxValue - overValue
      | none => minValue
    else v1

/-- `getParameterClampValue`: clamp `value` into the range. -/
def CubismModel.getParameterClampValue (s : CubismModel)
    (parameterIndex : Int) (value : ℚ) : ℚ :=
  if csmMapIsExist s.notExistParameterValues parameterIndex then
    value
  else
    let i := parameterIndex.toNat
    cmClamp value (s.model.parameterMinimumValues.getD i 0)
      (s.model.parameterMaximumValues.getD i 0)

/-- `getParameterValueByIndex`: absent parameters read from the
    overflow map, real ones from the snapshot value array. -/
def CubismModel.getParameterValueByIndex (s : CubismModel)
    (parameterIndex : Int) : ℚ :=
  if csmMapIsExist s.notExistParameterValues parameterIndex then
    csmMapGetValue s.notExistParameterValues parameterIndex 0
  else
    s.model.parameterValues.getD parameterIndex.toNat 0

/-- `setParameterValueByIndex`: absent parameters blend into the
    overflow map with no range policy; real ones are wrapped or clamped
    according to `isRepeat` and blended into the snapshot value array.
    (A typed-array write at a negative index is a no-op, hence the
    sign guard on the store.) -/
def CubismModel.setParameterValueByIndex (s : CubismModel)
    (parameterIndex : Int) (value : ℚ) (weight : ℚ := 1) : CubismModel :=
  if csmMapIsExist s.notExistParameterValues parameterIndex then
    let stored :=
      if weight = 1 then value
      else csmMapGetValue s.notExistParameterValues parameterIndex 0 *
        (1 - weight) + value * weight
    { s with notExistParameterValues :=
        csmMapSetValue s.notExistParameterValues parameterIndex stored }
  else
    let v :=
      if s.isRepeat parameterIndex then s.getParameterRepeatValue parameterIndex value
      else s.getParameterClampValue parameterIndex value
    let i := parameterIndex.toNat
    let stored :=
      if weight = 1 then v
      else s.model.parameterValues.getD i 0 * (1 - weight) + v * weight
    let vals :=
      if 0 ≤ parameterIndex then s.model.parameterValues.set i stored
      else s.model.parameterValues
    { s with model := { s.model with parameterValues := vals } }

/-- `addParameterValueByIndex`: defined by the source directly as a
    `setParameterValueByIndex` of `get + value * weight`. -/
def CubismModel.addParameterValueByIndex (s : CubismModel)
    (parameterIndex : Int) (value : ℚ) (weight : ℚ := 1) : CubismModel :=
  s.setParameterValueByIndex parameterIndex
    (s.getParameterValueByIndex parameterIndex + value * weight)

/-- `multiplyParameterValueByIndex`: a `setParameterValueByIndex` of
    `get * (1 + (value - 1) * weight)`. -/
def CubismModel.multiplyParameterValueByIndex (s : CubismModel)
    (parameterIndex : Int) (value : ℚ) (weight : ℚ := 1) : CubismModel :=
  s.setParameterValueByIndex parameterIndex
    (s.getParameterValueByIndex parameterIndex * (1 + (value - 1) * weight))

/-!  ## Part opacities -/

/-- `setPartOpacityByIndex`: absent parts write into the overflow map;
    real parts write the snapshot opacity array (typed-array writes at
    a negative index are no-ops). -/
def CubismModel.setPartOpacityByIndex (s : CubismModel) (partIndex : Int)
    (opacity : ℚ) : CubismModel :=
  if csmMapIsExist s.notExistPartOpacities partIndex then
    { s with notExistPartOpacities :=
        csmMapSetValue s.notExistPartOpacities partIndex opacity }
  else
    let ops :=
      if 0 ≤ partIndex then s.model.partOpacities.set partIndex.toNat opacity
      else s.model.partOpacities
    { s with model := { s.model with partOpacities := ops } }

/-- `getPartOpacityByIndex`. -/
def CubismModel.getPartOpacityByIndex (s : CubismModel) (partIndex : Int) : ℚ :=
  if csmMapIsExist s.notExistPartOpacities partIndex then
    csmMapGetValue s.notExistPartOpacities partIndex 0
  else
    s.model.partOpacities.getD partIndex.toNat 0

/-- `setPartOpacityById`: resolve the index (possibly allocating an
    absent-identifier entry), skip when negative, else set. -/
def CubismModel.setPartOpacityById (s : CubismModel) (partId : Nat)
    (opacity : ℚ) : CubismModel :=
  let r := s.getPartIndex partId
  if r.2 < 0 then r.1
  else r.1.setPartOpacityByIndex r.2 opacity

/-- `getPartOpacityById`: resolve the index, return `0` when negative,
    else read (the lookup itself can mutate the overflow maps). -/
def CubismModel.getPartOpacityById (s : CubismModel) (partId : Nat) :
    CubismModel × ℚ :=
  let r := s.getPartIndex partId
  if r.2 < 0 then (r.1, 0)
  else (r.1, r.1.getPartOpacityByIndex r.2)

/-!  ## Save / load checkpoint -/

/-- One iteration of the `saveParameters` loop: overwrite while inside
    the previously saved size (read once, before the loop), push back
    beyond it. -/
def saveParamsStep (values : List ℚ) (savedParameterCount : Nat)
    (saved : List ℚ) (i : Nat) : List ℚ :=
  if i < savedParameterCount then saved.set i (values.getD i 0)
  else saved ++ [values.getD i 0]

/-- `saveParameters`: copy the current value array into the side
    buffer, overwriting existing slots and appending new ones. -/
def CubismModel.saveParameters (s : CubismModel) : CubismModel :=
  let saved := (List.range s.model.parameterCount).foldl
    (saveParamsStep s.model.parameterValues s.savedParameters.length)
    s.savedParameters
  { s with savedParameters := saved }

/-- `loadParameters`: copy back `min(current count, saved count)`
    entries from the side buffer into the value array. -/
def CubismModel.loadParameters (s : CubismModel) : CubismModel :=
  let n := min s.model.parameterCount s.savedParameters.length
  let vals := (List.range n).foldl
    (fun vals i => vals.set i (s.savedParameters.getD i 0))
    s.model.parameterValues
  { s with model := { s.model with parameterValues := vals } }

/-!  ## Initialization -/

/-- The drawable loop's topology step: push drawable `i` onto its
    parent part's child list when the parent index is non-negative. -/
def childTopologyStep (parents : List Int) (pcd : List (List Nat)) (i : Nat) :
    List (List Nat) :=
  let parentIndex := parents.getD i 0
  if 0 ≤ parentIndex then listModify pcd parentIndex.toNat (fun l => l ++ [i])
  else pcd

/-- `initialize`: intern the id vectors, allocate one override record
    per real parameter/part/drawable, and build the part→drawable
    topology.  Per-slot records are freshly constructed inside the
    source loops (so a value per slot is exact); the culling record is
    constructed once before the drawable loop and the same reference is
    pushed for every drawable, so one cell is allocated on
    `cullingHeap` and every `userCullings` slot stores its address. -/
def CubismModel.initializeModel (s : CubismModel) : CubismModel :=
  let paramCount := s.model.parameterCount
  let partCount := s.model.partCount
  let drawableCount := s.model.drawableCount
  let userCullingAddr := s.cullingHeap.length
  let pcd0 := s.partChildDrawables ++ List.replicate partCount []
  { s with
    parameterIds := s.parameterIds ++ s.model.parameterIds
    userParameterRepeatDataList := s.userParameterRepeatDataList ++
      List.replicate paramCount { isOverridden := false, isParameterRepeated := false }
    partIds := s.partIds ++ s.model.partIds
    userPartMultiplyColors := s.userPartMultiplyColors ++
      List.replicate partCount { isOverridden := false, color := ⟨1, 1, 1, 1⟩ }
    userPartScreenColors := s.userPartScreenColors ++
      List.replicate partCount { isOverridden := false, color := ⟨0, 0, 0, 1⟩ }
    drawableIds := s.drawableIds ++ s.model.drawableIds
    userMultiplyColors := s.userMultiplyColors ++
      List.replicate drawableCount { isOverridden := false, color := ⟨1, 1, 1, 1⟩ }
    userScreenColors := s.userScreenColors ++
      List.replicate drawableCount { isOverridden := false, color := ⟨0, 0, 0, 1⟩ }
    cullingHeap := s.cullingHeap ++ [{ isOverridden := false, isCulling := false }]
    userCullings := s.userCullings ++ List.replicate drawableCount userCullingAddr
    partChildDrawables := (List.range drawableCount).foldl
      (childTopologyStep s.model.drawableParentPartIndices) pcd0 }

/-!  ## Supporting lemmas: list access -/

theorem listModify_length (l : List α) (i : Nat) (f : α → α) :
    (listModify l i f).length = l.length := by
  induction l generalizing i with
  | nil => rfl
  | cons x xs ih =>
    cases i with
    | zero => rfl
    | succ n => simp [listModify, ih]

theorem getD_listModify_self (l : List α) (i : Nat) (f : α → α) (d : α)
    (h : i < l.length) : (listModify l i f).getD i d = f (l.getD i d) := by
  induction l generalizing i with
  | nil => simp at h
  | cons x xs ih =>
    cases i with
    | zero => rfl
    | succ n =>
      simp only [listModify, List.getD_cons_succ]
      exact ih n (by simpa using h)

theorem getD_listModify_ne (l : List α) (i j : Nat) (f : α → α) (d : α)
    (h : i ≠ j) : (listModify l i f).getD j d = l.getD j d := by
  induction l generalizing i j with
  | nil => rfl
  | cons x xs ih =>
    cases i with
    | zero =>
      cases j with
      | zero => exact absurd rfl h
      | succ m => rfl
    | succ n =>
      cases j with
      | zero => rfl
      | succ m =>
        simp only [listModify, List.getD_cons_succ]
        exact ih n m (by omega)

theorem getD_set_self (l : List α) (i : Nat) (v d : α) (h : i < l.length) :
    (l.set i v).getD i d = v := by
  induction l generalizing i with
  | nil => simp at h
  | cons x xs ih =>
    cases i with
    | zero => rfl
    | succ n =>
      simp only [List.set_cons_succ, List.getD_cons_succ]
      exact ih n (by simpa using h)

theorem getD_set_ne (l : List α) (i j : Nat) (v d : α) (h : i ≠ j) :
    (l.set i v).getD j d = l.getD j d := by
  induction l generalizing i j with
  | nil => rfl
  | cons x xs ih =>
    cases i with
    | zero =>
      cases j with
      | zero => exact absurd rfl h
      | succ m => rfl
    | succ n =>
      cases j with
      | zero => rfl
      | succ m =>
        simp only [List.set_cons_succ, List.getD_cons_succ]
        exact ih n m (by omega)

theorem getD_replicate_self (n : Nat) (a : α) (j : Nat) :
    (List.replicate n a).getD j a = a := by
  induction n generalizing j with
  | zero => rfl
  | succ m ih =>
    cases j with
    | zero => rfl
    | succ k => simp only [List.replicate, List.getD_cons_succ, ih k]

theorem getD_append_left (l l' : List α) (j : Nat) (d : α)
    (h : j < l.length) : (l ++ l').getD j d = l.getD j d := by
  induction l generalizing j with
  | nil => simp at h
  | cons x xs ih =>
    cases j with
    | zero => rfl
    | succ m =>
      simp only [List.cons_append, List.getD_cons_succ]
      exact ih m (by simpa using h)

/-!  ## Supporting lemmas: the `csmMap` model -/

theorem csmMapGetValue_setValue_self [DecidableEq K] (m : List (K × V))
    (k : K) (v : V) (d : V) :
    csmMapGetValue (csmMapSetValue m k v) k d = v := by
  induction m with
  | nil => simp [csmMapSetValue, csmMapGetValue]
  | cons kv rest ih =>
    by_cases h : kv.1 = k
    · simp [csmMapSetValue, csmMapGetValue, h]
    · simp only [csmMapSetValue, if_neg h]
      simpa [csmMapGetValue, List.find?, h] using ih

theorem csmMapIsExist_setValue_self [DecidableEq K] (m : List (K × V))
    (k : K) (v : V) : csmMapIsExist (csmMapSetValue m k v) k = true := by
  induction m with
  | nil => simp [csmMapSetValue, csmMapIsExist]
  | cons kv rest ih =>
    by_cases h : kv.1 = k
    · simp [csmMapSetValue, csmMapIsExist, h]
    · simp only [csmMapSetValue, if_neg h]
      simpa [csmMapIsExist, h] using ih

theorem csmMapSetValue_of_not_exist [DecidableEq K] (m : List (K × V))
    (k : K) (v : V) (h : csmMapIsExist m k = false) :
    csmMapSetValue m k v = m ++ [(k, v)] := by
  induction m with
  | nil => rfl
  | cons kv rest ih =>
    simp only [csmMapIsExist, List.any_cons, Bool.or_eq_false_iff,
      decide_eq_false_iff_not] at h
    simp only [csmMapSetValue, if_neg h.1, List.cons_append]
    congr 1
    exact ih (by simpa [csmMapIsExist] using h.2)

theorem csmMapIsExist_append [DecidableEq K] (m m' : List (K × V)) (k : K) :
    csmMapIsExist (m ++ m') k = (csmMapIsExist m k || csmMapIsExist m' k) := by
  simp [csmMapIsExist]

theorem csmMapIsExist_singleton_self [DecidableEq K] (k : K) (v : V) :
    csmMapIsExist [(k, v)] k = true := by
  simp [csmMapIsExist]

theorem csmMapGetValue_append_of_not_exist [DecidableEq K] (m : List (K × V))
    (k : K) (v : V) (d : V) (h : csmMapIsExist m k = false) :
    csmMapGetValue (m ++ [(k, v)]) k d = v := by
  induction m with
  | nil => simp [csmMapGetValue]
  | cons kv rest ih =>
    simp only [csmMapIsExist, List.any_cons, Bool.or_eq_false_iff,
      decide_eq_false_iff_not] at h
    simp only [List.cons_append, csmMapGetValue, List.find?]
    rw [show (decide (kv.1 = k)) = false by simpa using h.1]
    simpa [csmMapGetValue] using ih (by simpa [csmMapIsExist] using h.2)

theorem csmMapIsExist_exists_mem [DecidableEq K] (m : List (K × V)) (k : K)
    (h : csmMapIsExist m k = true) :
    ∃ kv ∈ m, kv.1 = k ∧ ∀ d, csmMapGetValue m k d = kv.2 := by
  induction m with
  | nil => simp [csmMapIsExist] at h
  | cons kv rest ih =>
    by_cases hk : kv.1 = k
    · exact ⟨kv, List.mem_cons_self kv rest, hk,
        fun d => by simp [csmMapGetValue, List.find?, hk]⟩
    · have h' : csmMapIsExist rest k = true := by
        simpa [csmMapIsExist, hk] using h
      obtain ⟨p, hp, hp1, hp2⟩ := ih h'
      refine ⟨p, List.mem_cons_of_mem kv hp, hp1, fun d => ?_⟩
      simpa [csmMapGetValue, List.find?, hk] using hp2 d

/-!  ## Supporting lemmas: modulo bounds -/

theorem qmod_nonneg (x y : ℚ) (hy : 0 < y) : 0 ≤ qmod x y := by
  have h1 : ((⌊x / y⌋ : ℤ) : ℚ) ≤ x / y := Int.floor_le _
  have hx : y * (x / y) = x := by field_simp
  have h3 : y * ((⌊x / y⌋ : ℤ) : ℚ) ≤ y * (x / y) :=
    mul_le_mul_of_nonneg_left h1 (le_of_lt hy)
  unfold qmod
  linarith

theorem qmod_lt (x y : ℚ) (hy : 0 < y) : qmod x y < y := by
  have h2 : x / y < ((⌊x / y⌋ : ℤ) : ℚ) + 1 := Int.lt_floor_add_one _
  have hx : y * (x / y) = x := by field_simp
  have h3 : y * (x / y) < y * (((⌊x / y⌋ : ℤ) : ℚ) + 1) :=
    mul_lt_mul_of_pos_left h2 hy
  unfold qmod
  nlinarith

/-!  ## Supporting lemmas: the save/load loops -/

theorem set_append_len (a b : List α) (v : α) :
    (a ++ b).set a.length v = a ++ b.set 0 v := by
  induction a with
  | nil => rfl
  | cons x xs ih => simp [List.set_cons_succ, ih]

theorem take_succ_getD (l : List α) (n : Nat) (d : α) (h : n < l.length) :
    l.take n ++ [l.getD n d] = l.take (n + 1) := by
  induction l generalizing n with
  | nil => simp at h
  | cons x xs ih =>
    cases n with
    | zero => rfl
    | succ m =>
      simp only [List.take_succ_cons, List.getD_cons_succ, List.cons_append,
        List.cons.injEq, true_and]
      exact ih m (by simpa using h)

theorem drop_set_zero (l : List α) (n : Nat) (v : α) (h : n < l.length) :
    (l.drop n).set 0 v = v :: l.drop (n + 1) := by
  induction l generalizing n with
  | nil => simp at h
  | cons x xs ih =>
    cases n with
    | zero => rfl
    | succ m =>
      simp only [List.drop_succ_cons]
      exact ih m (by simpa using h)

theorem saveLoop_eq (values saved : List ℚ) (n : Nat) (hn : n ≤ values.length) :
    (List.range n).foldl (saveParamsStep values saved.length) saved =
      values.take n ++ saved.drop n := by
  induction n with
  | zero => simp
  | succ m ih =>
    have hm : m ≤ values.length := Nat.le_of_succ_le hn
    have hmv : m < values.length := hn
    rw [List.range_succ, List.foldl_append, ih hm]
    simp only [List.foldl_cons, List.foldl_nil, saveParamsStep]
    by_cases hms : m < saved.length
    · rw [if_pos hms]
      have hlen : (values.take m).length = m := by
        simp [List.length_take, Nat.min_eq_left hm]
      rw [show ((values.take m ++ saved.drop m).set m (values.getD m 0)) =
          (values.take m ++ saved.drop m).set (values.take m).length
            (values.getD m 0) by rw [hlen]]
      rw [set_append_len, drop_set_zero saved m _ hms,
        show values.take m ++ values.getD m 0 :: saved.drop (m + 1) =
          (values.take m ++ [values.getD m 0]) ++ saved.drop (m + 1) by simp]
      rw [take_succ_getD values m 0 hmv]
    · rw [if_neg hms]
      have hd1 : saved.drop m = [] :=
        List.drop_eq_nil_of_le (by omega)
      have hd2 : saved.drop (m + 1) = [] :=
        List.drop_eq_nil_of_le (by omega)
      rw [hd1, hd2, List.append_nil, List.append_nil,
        take_succ_getD values m 0 hmv]

theorem loadLoop_eq (values saved : List ℚ) (n : Nat)
    (hn1 : n ≤ values.length) (hn2 : n ≤ saved.length) :
    (List.range n).foldl (fun vals i => vals.set i (saved.getD i 0)) values =
      saved.take n ++ values.drop n := by
  induction n with
  | zero => simp
  | succ m ih =>
    have hm1 : m ≤ values.length := Nat.le_of_succ_le hn1
    have hm2 : m ≤ saved.length := Nat.le_of_succ_le hn2
    have hmv : m < values.length := hn1
    have hms : m < saved.length := hn2
    rw [List.range_succ, List.foldl_append, ih hm1 hm2]
    simp only [List.foldl_cons, List.foldl_nil]
    have hlen : (saved.take m).length = m := by
      simp [List.length_take, Nat.min_eq_left hm2]
    rw [show ((saved.take m ++ values.drop m).set m (saved.getD m 0)) =
        (saved.take m ++ values.drop m).set (saved.take m).length
          (saved.getD m 0) by rw [hlen]]
    rw [set_append_len, drop_set_zero values m _ hmv,
      show saved.take m ++ saved.getD m 0 :: values.drop (m + 1) =
        (saved.take m ++ [saved.getD m 0]) ++ values.drop (m + 1) by simp]
    rw [take_succ_getD saved m 0 hms]

/-!  ## Supporting lemmas: the part→drawable cascade -/

theorem getD_listModify_cases (l : List α) (i j : Nat) (f : α → α) (d : α) :
    (listModify l i f).getD j d =
      if i = j ∧ j < l.length then f (l.getD j d) else l.getD j d := by
  induction l generalizing i j with
  | nil => simp [listModify]
  | cons x xs ih =>
    cases i with
    | zero =>
      cases j with
      | zero => simp [listModify]
      | succ m => simp [listModify]
    | succ n =>
      cases j with
      | zero => simp [listModify]
      | succ m =>
        simp only [listModify, List.getD_cons_succ, ih n m, List.length_cons]
        by_cases h : n = m ∧ m < xs.length
        · rw [if_pos h, if_pos (by omega)]
        · rw [if_neg h, if_neg (by omega)]

theorem cascade_cons (c : Nat) (rest : List Nat) (value : Bool)
    (pc : TextureColor) (dc : List DrawableColorData) :
    cascadeOverrideToDrawables (c :: rest) value pc dc =
      cascadeOverrideToDrawables rest value pc
        (listModify dc c (fun d =>
          { d with
            isOverridden := value
            color := if value then pc else d.color })) := rfl

theorem cascade_length (children : List Nat) (value : Bool)
    (pc : TextureColor) (dc : List DrawableColorData) :
    (cascadeOverrideToDrawables children value pc dc).length = dc.length := by
  induction children generalizing dc with
  | nil => rfl
  | cons c rest ih =>
    rw [cascade_cons, ih, listModify_length]

theorem cascade_getD_not_mem (children : List Nat) (value : Bool)
    (pc : TextureColor) (dc : List DrawableColorData) (j : Nat)
    (d : DrawableColorData) (h : j ∉ children) :
    (cascadeOverrideToDrawables children value pc dc).getD j d = dc.getD j d := by
  induction children generalizing dc with
  | nil => rfl
  | cons c rest ih =>
    simp only [List.mem_cons, not_or] at h
    rw [cascade_cons, ih _ h.2, getD_listModify_cases,
      if_neg (by intro hc; exact h.1 hc.1.symm)]

theorem cascade_color_false (children : List Nat) (pc : TextureColor)
    (dc : List DrawableColorData) (j : Nat) (d : DrawableColorData) :
    ((cascadeOverrideToDrawables children false pc dc).getD j d).color =
      (dc.getD j d).color := by
  induction children generalizing dc with
  | nil => rfl
  | cons c rest ih =>
    rw [cascade_cons, ih, getD_listModify_cases]
    by_cases h : c = j ∧ j < dc.length
    · rw [if_pos h]
      simp
    · rw [if_neg h]

theorem cascade_flag_mem (children : List Nat) (value : Bool)
    (pc : TextureColor) (dc : List DrawableColorData) (j : Nat)
    (d : DrawableColorData) (hj : j ∈ children) (hlen : j < dc.length) :
    ((cascadeOverrideToDrawables children value pc dc).getD j d).isOverridden =
      value := by
  induction children generalizing dc with
  | nil => simp at hj
  | cons c rest ih =>
    rw [cascade_cons]
    by_cases hr : j ∈ rest
    · exact ih _ hr (by rw [listModify_length]; exact hlen)
    · have hcj : c = j := by
        rcases List.mem_cons.mp hj with h | h
        · exact h.symm
        · exact absurd h hr
      rw [cascade_getD_not_mem _ _ _ _ _ _ hr, getD_listModify_cases,
        if_pos ⟨hcj, hlen⟩]

/-!  ## Claim C1 -/

/-- One part (id 100) whose only child drawable is index 0 (id 200). -/
def c1Core : CoreModel where
  parameterIds := []
  parameterMinimumValues := []
  parameterMaximumValues := []
  parameterRepeats := []
  parameterValues := []
  partIds := [100]
  partOpacities := [1]
  drawableIds := [200]
  drawableConstantFlags := [0]
  drawableMultiplyColors := [1, 1, 1, 1]
  drawableScreenColors := [0, 0, 0, 1]
  drawableParentPartIndices := [0]

def c1Model : CubismModel := (CubismModel.construct c1Core).initializeModel

def c1Enabled : CubismModel := c1Model.setOverrideColorForPartMultiplyColors 0 true

def c1Disabled : CubismModel :=
  c1Enabled.setOverrideColorForPartMultiplyColors 0 false

/-- C1 is false on the code: after enabling part 0's multiply-color
    override (child drawable 0's flag becomes `true`), calling
    `setOverrideColorForPartMultiplyColors(0, false)` does *not* leave
    the child's override record unchanged — the child's `isOverridden`
    flag is cascaded to `false`. -/
theorem C1_counterexample :
    (c1Enabled.userMultiplyColors.getD 0 default).isOverridden = true ∧
    (c1Disabled.userMultiplyColors.getD 0 default).isOverridden = false := by
  decide

/-- C1 (amended): calling `setOverrideColorForPartMultiplyColors(p,
    false)` (or the screen equivalent) sets every child drawable's
    `isOverridden` flag to `false` — the flag write cascades
    unconditionally — while leaving every child drawable's RGBA color
    unchanged; the part's own override flag becomes `false`. -/
theorem setOverrideColorForPart_false_effect (s : CubismModel)
    (ch : ColorChannel) (p d : Nat) (s' : CubismModel)
    (hd : d ∈ s.partChildDrawables.getD p [])
    (hdl : d < (s.drawableColors ch).length)
    (hpl : p < (s.partColors ch).length)
    (hs : s' = s.setOverrideColorForPart ch p false) :
    ((s'.drawableColors ch).getD d default).isOverridden = false ∧
    ((s'.drawableColors ch).getD d default).color =
      ((s.drawableColors ch).getD d default).color ∧
    ((s'.partColors ch).getD p default).isOverridden = false := by
  subst hs
  cases ch
  case multiply =>
    simp only [CubismModel.setOverrideColorForPart,
      CubismModel.setOverrideColorForPartMultiplyColors,
      CubismModel.setOverrideColorForPartColors, CubismModel.withPartColors,
      CubismModel.withDrawableColors, CubismModel.partColors,
      CubismModel.drawableColors] at *
    refine ⟨cascade_flag_mem _ _ _ _ _ _ hd hdl,
      cascade_color_false _ _ _ _ _, ?_⟩
    rw [getD_listModify_cases,
      if_pos ⟨rfl, by rw [listModify_length]; exact hpl⟩]
  case screen =>
    simp only [CubismModel.setOverrideColorForPart,
      CubismModel.setOverrideColorForPartScreenColors,
      CubismModel.setOverrideColorForPartColors, CubismModel.withPartColors,
      CubismModel.withDrawableColors, CubismModel.partColors,
      CubismModel.drawableColors] at *
    refine ⟨cascade_flag_mem _ _ _ _ _ _ hd hdl,
      cascade_color_false _ _ _ _ _, ?_⟩
    rw [getD_listModify_cases,
      if_pos ⟨rfl, by rw [listModify_length]; exact hpl⟩]

/-- Witness for the amended C1 theorem at a concrete input. -/
theorem setOverrideColorForPart_false_effect_witness :
    (0 ∈ c1Enabled.partChildDrawables.getD 0 [] ∧
      0 < (c1Enabled.drawableColors ColorChannel.multiply).length ∧
      0 < (c1Enabled.partColors ColorChannel.multiply).length) ∧
    (((c1Disabled.drawableColors ColorChannel.multiply).getD 0 default).isOverridden
        = false ∧
      ((c1Disabled.drawableColors ColorChannel.multiply).getD 0 default).color =
        ((c1Enabled.drawableColors ColorChannel.multiply).getD 0 default).color ∧
      ((c1Disabled.partColors ColorChannel.multiply).getD 0 default).isOverridden
        = false) :=
  ⟨⟨by decide, by decide, by decide⟩,
    setOverrideColorForPart_false_effect c1Enabled ColorChannel.multiply 0 0
      c1Disabled (by decide) (by decide) (by decide) rfl⟩

/-!  ## Claim C2 -/

/-- One parameter (id 10) whose asset-authored repeat bit is set. -/
def c2Core : CoreModel where
  parameterIds := [10]
  parameterMinimumValues := [0]
  parameterMaximumValues := [1]
  parameterRepeats := [1]
  parameterValues := [0]
  partIds := []
  partOpacities := []
  drawableIds := []
  drawableConstantFlags := []
  drawableMultiplyColors := []
  drawableScreenColors := []
  drawableParentPartIndices := []

def c2Model : CubismModel := (CubismModel.construct c2Core).initializeModel

/-- C2 is false on the code: on a freshly constructed and initialized
    model with no setter called, `isRepeat(0)` is `false` although the
    asset-authored repeat bit of parameter 0 is set — the constructor
    initialises the model-wide repeat-override flag to `true`, so the
    override path (whose `isParameterRepeated` defaults to `false`) is
    taken instead of the asset bit. -/
theorem C2_counterexample :
    c2Model.isRepeat 0 = false ∧
    (c2Core.parameterRepeats.getD 0 0 != 0) = true ∧
    c2Model.isOverriddenParameterRepeat = true := by
  decide

/-- C2 (amended): a freshly constructed model has the model-wide
    repeat-override flag `true` by default, so `isRepeat(i)` returns the
    per-parameter override record's `isParameterRepeated` (`false` after
    initialization) regardless of the asset bit; only once the
    model-wide flag is set to `false` (the per-parameter `isOverridden`
    being still `false` from initialization) does `isRepeat(i)` return
    exactly the asset-authored bit `repeats[i] != 0`. -/
theorem getD_replicate (n : Nat) (a d : α) (j : Nat) :
    (List.replicate n a).getD j d = if j < n then a else d := by
  induction n generalizing j with
  | zero => simp
  | succ m ih =>
    cases j with
    | zero => simp [List.replicate]
    | succ k =>
      simp only [List.replicate, List.getD_cons_succ, ih k]
      by_cases h : k < m
      · rw [if_pos h, if_pos (by omega)]
      · rw [if_neg h, if_neg (by omega)]

theorem isRepeat_fresh_and_after_clearing_override (core : CoreModel) (i : Nat) :
    ((CubismModel.construct core).initializeModel).isRepeat i = false ∧
    (((CubismModel.construct core).initializeModel).setOverrideFlagForModelParameterRepeat
        false).isRepeat i = (core.parameterRepeats.getD i 0 != 0) := by
  constructor
  · simp only [CubismModel.isRepeat, CubismModel.initializeModel,
      CubismModel.construct, CubismModel.setOverrideFlagForModelParameterRepeat,
      List.nil_append]
    rw [if_neg (by simp [csmMapIsExist]), if_pos (by simp)]
    rw [getD_replicate]
    split <;> rfl
  · simp only [CubismModel.isRepeat, CubismModel.initializeModel,
      CubismModel.construct, CubismModel.setOverrideFlagForModelParameterRepeat,
      List.nil_append]
    rw [if_neg (by simp [csmMapIsExist])]
    rw [if_neg (by rw [getD_replicate]; split <;> simp)]
    simp [CoreModel.parameterCount]

/-!  ## Claim C3 -/

/-- One parameter (id 10), one part (id 100), one drawable (id 200);
    handle 7 is unknown to the asset. -/
def c3Core : CoreModel where
  parameterIds := [10]
  parameterMinimumValues := [0]
  parameterMaximumValues := [1]
  parameterRepeats := [0]
  parameterValues := [0]
  partIds := [100]
  partOpacities := [1]
  drawableIds := [200]
  drawableConstantFlags := [0]
  drawableMultiplyColors := [1, 1, 1, 1]
  drawableScreenColors := [0, 0, 0, 1]
  drawableParentPartIndices := [0]

def c3Model : CubismModel := (CubismModel.construct c3Core).initializeModel

/-- C3 is false on the code: looking up the unknown drawable id 7
    returns the error value `-1` (a negative non-index), while the very
    same unknown handle is promoted to the synthetic absent-identifier
    index `1 = count + 0` by the parameter and part lookups — drawable
    lookup is *not* handled the same way. -/
theorem C3_counterexample :
    c3Model.getDrawableIndex 7 = -1 ∧
    ¬(0 ≤ c3Model.getDrawableIndex 7) ∧
    (c3Model.getParameterIndex 7).2 = 1 ∧
    (c3Model.getPartIndex 7).2 = 1 := by
  decide

/-- C3 (amended): for every drawable identifier not present in the
    loaded asset, `getDrawableIndex` returns the error value `-1`; the
    absent-identifier promotion exists only for parameter and part
    lookups (the function also allocates nothing — it does not touch the
    model state). -/
theorem getDrawableIndex_unknown_eq_neg_one (s : CubismModel) (id : Nat)
    (h : findIdIndex s.drawableIds s.model.drawableCount id = none) :
    s.getDrawableIndex id = -1 := by
  simp [CubismModel.getDrawableIndex, h]

/-- Witness for the amended C3 theorem at a concrete input. -/
theorem getDrawableIndex_unknown_eq_neg_one_witness :
    findIdIndex c3Model.drawableIds c3Model.model.drawableCount 7 = none ∧
    c3Model.getDrawableIndex 7 = -1 :=
  ⟨by decide, getDrawableIndex_unknown_eq_neg_one c3Model 7 (by decide)⟩

/-!  ## Claim C5 -/

/-- C5: for every drawable index, `getMultiplyColor`, `getScreenColor`
    and `getDrawableCulling` resolve flat and unblended: the model-wide
    override flag selects the stored per-drawable override value
    regardless of the drawable's own flag; else the drawable's own flag
    selects that same stored value; else the asset-authored snapshot
    value is returned (for culling: on exactly when the double-sided
    constant bit is absent). -/
theorem getColor_and_culling_precedence (s : CubismModel) (d : Nat) :
    ((s.isOverriddenModelMultiplyColors = true →
        s.getMultiplyColor d = (s.userMultiplyColors.getD d default).color) ∧
      (s.isOverriddenModelMultiplyColors = false →
        (s.userMultiplyColors.getD d default).isOverridden = true →
        s.getMultiplyColor d = (s.userMultiplyColors.getD d default).color) ∧
      (s.isOverriddenModelMultiplyColors = false →
        (s.userMultiplyColors.getD d default).isOverridden = false →
        s.getMultiplyColor d = s.getDrawableMultiplyColor d)) ∧
    ((s.isOverriddenModelScreenColors = true →
        s.getScreenColor d = (s.userScreenColors.getD d default).color) ∧
      (s.isOverriddenModelScreenColors = false →
        (s.userScreenColors.getD d default).isOverridden = true →
        s.getScreenColor d = (s.userScreenColors.getD d default).color) ∧
      (s.isOverriddenModelScreenColors = false →
        (s.userScreenColors.getD d default).isOverridden = false →
        s.getScreenColor d = s.getDrawableScreenColor d)) ∧
    ((s.isOverriddenCullings = true →
        s.getDrawableCulling d = (s.cullingDataAt d).isCulling) ∧
      (s.isOverriddenCullings = false →
        (s.cullingDataAt d).isOverridden = true →
        s.getDrawableCulling d = (s.cullingDataAt d).isCulling) ∧
      (s.isOverriddenCullings = false →
        (s.cullingDataAt d).isOverridden = false →
        s.getDrawableCulling d =
          !hasIsDoubleSidedBit (s.model.drawableConstantFlags.getD d 0))) := by
  refine ⟨⟨fun h1 => ?_, fun h1 h2 => ?_, fun h1 h2 => ?_⟩,
    ⟨fun h1 => ?_, fun h1 h2 => ?_, fun h1 h2 => ?_⟩,
    ⟨fun h1 => ?_, fun h1 h2 => ?_, fun h1 h2 => ?_⟩⟩ <;>
    (try simp only [List.getD_eq_getElem?_getD] at h2) <;>
    simp_all [CubismModel.getMultiplyColor, CubismModel.getScreenColor,
      CubismModel.getDrawableCulling,
      CubismModel.getOverrideFlagForModelMultiplyColors,
      CubismModel.getOverrideFlagForModelScreenColors,
      CubismModel.getOverrideFlagForModelCullings,
      CubismModel.getOverrideFlagForDrawableMultiplyColors,
      CubismModel.getOverrideFlagForDrawableScreenColors,
      CubismModel.getOverrideFlagForDrawableCullings]

/-- One drawable whose constant flags have the double-sided bit set. -/
def c5Core : CoreModel where
  parameterIds := []
  parameterMinimumValues := []
  parameterMaximumValues := []
  parameterRepeats := []
  parameterValues := []
  partIds := []
  partOpacities := []
  drawableIds := [200]
  drawableConstantFlags := [4]
  drawableMultiplyColors := [1, 1, 1, 1]
  drawableScreenColors := [0, 0, 0, 1]
  drawableParentPartIndices := [-1]

def c5Off : CubismModel := (CubismModel.construct c5Core).initializeModel

def c5On : CubismModel :=
  ((c5Off.setOverrideFlagForModelMultiplyColors
    true).setOverrideFlagForModelScreenColors true).setOverrideFlagForModelCullings
    true

/-- Witness for the C5 theorem at concrete inputs. -/
theorem getColor_and_culling_precedence_witness :
    (c5On.isOverriddenModelMultiplyColors = true ∧
      c5On.getMultiplyColor 0 = (c5On.userMultiplyColors.getD 0 default).color) ∧
    (c5Off.isOverriddenModelMultiplyColors = false ∧
      (c5Off.userMultiplyColors.getD 0 default).isOverridden = false ∧
      c5Off.getMultiplyColor 0 = c5Off.getDrawableMultiplyColor 0) ∧
    (c5Off.isOverriddenCullings = false ∧
      (c5Off.cullingDataAt 0).isOverridden = false ∧
      c5Off.getDrawableCulling 0 =
        !hasIsDoubleSidedBit (c5Off.model.drawableConstantFlags.getD 0 0)) :=
  ⟨⟨by decide, (getColor_and_culling_precedence c5On 0).1.1 (by decide)⟩,
    ⟨by decide, by decide,
      (getColor_and_culling_precedence c5Off 0).1.2.2 (by decide) (by decide)⟩,
    ⟨by decide, by decide,
      (getColor_and_culling_precedence c5Off 0).2.2.2.2 (by decide) (by decide)⟩⟩

/-!  ## Claim C8 -/

/-- C8: `addParameterValueByIndex(i, v, w)` produces exactly the state
    of `setParameterValueByIndex(i, get(i) + v*w)`, and
    `multiplyParameterValueByIndex(i, v, w)` exactly the state of
    `setParameterValueByIndex(i, get(i) * (1 + (v-1)*w))` — the source
    defines them as precisely those calls, so both inherit the
    repeat/clamp resolution and absent-identifier handling of
    `setParameterValueByIndex`. -/
theorem add_multiply_defined_by_set (s : CubismModel) (i : Int) (v w : ℚ) :
    s.addParameterValueByIndex i v w =
      s.setParameterValueByIndex i (s.getParameterValueByIndex i + v * w) ∧
    s.multiplyParameterValueByIndex i v w =
      s.setParameterValueByIndex i
        (s.getParameterValueByIndex i * (1 + (v - 1) * w)) :=
  ⟨rfl, rfl⟩

/-!  ## Claim C7 -/

theorem getD_take (l : List α) (n j : Nat) (d : α) (h : j < n) :
    (l.take n).getD j d = l.getD j d := by
  induction l generalizing n j with
  | nil => simp
  | cons x xs ih =>
    cases n with
    | zero => omega
    | succ m =>
      cases j with
      | zero => rfl
      | succ k =>
        simp only [List.take_succ_cons, List.getD_cons_succ]
        exact ih m k (by omega)

theorem getD_append_right (a b : List α) (j : Nat) (d : α)
    (h : a.length ≤ j) : (a ++ b).getD j d = b.getD (j - a.length) d := by
  induction a generalizing j with
  | nil => simp
  | cons x xs ih =>
    cases j with
    | zero => simp at h
    | succ k =>
      simp only [List.cons_append, List.getD_cons_succ, List.length_cons]
      rw [ih k (by simpa using h)]
      congr 1
      omega

theorem getD_drop (l : List α) (n j : Nat) (d : α) :
    (l.drop n).getD j d = l.getD (n + j) d := by
  induction l generalizing n with
  | nil => simp
  | cons x xs ih =>
    cases n with
    | zero => simp
    | succ m =>
      simp only [List.drop_succ_cons, ih m, Nat.succ_add, List.getD_cons_succ]

/-- C7: `saveParameters()` then `loadParameters()` restores every entry
    of the value array exactly; `loadParameters` copies back only
    `min(count, saved)` entries, leaving later current entries
    untouched; `saveParameters` overwrites the first `count` slots of
    the side buffer and appends (never overwrites) beyond the
    previously saved size — entries of the old buffer beyond `count`
    are preserved. -/
theorem saveLoad_roundtrip_and_bounds (s : CubismModel)
    (hlen : s.model.parameterValues.length = s.model.parameterCount) :
    ((s.saveParameters).loadParameters).model.parameterValues =
      s.model.parameterValues ∧
    (s.saveParameters).savedParameters =
      s.model.parameterValues ++ s.savedParameters.drop s.model.parameterCount ∧
    (∀ j, j < min s.model.parameterCount s.savedParameters.length →
      (s.loadParameters).model.parameterValues.getD j 0 =
        s.savedParameters.getD j 0) ∧
    (∀ j, min s.model.parameterCount s.savedParameters.length ≤ j →
      (s.loadParameters).model.parameterValues.getD j 0 =
        s.model.parameterValues.getD j 0) := by
  have hsave : (s.saveParameters).savedParameters =
      s.model.parameterValues ++ s.savedParameters.drop s.model.parameterCount := by
    simp only [CubismModel.saveParameters]
    rw [saveLoop_eq s.model.parameterValues s.savedParameters
      s.model.parameterCount (le_of_eq hlen.symm)]
    rw [← hlen, List.take_length]
  have hn : min s.model.parameterCount s.savedParameters.length ≤
      s.model.parameterValues.length := by omega
  have hload : (s.loadParameters).model.parameterValues =
      s.savedParameters.take
          (min s.model.parameterCount s.savedParameters.length) ++
        s.model.parameterValues.drop
          (min s.model.parameterCount s.savedParameters.length) := by
    simp only [CubismModel.loadParameters]
    exact loadLoop_eq s.model.parameterValues s.savedParameters _ hn
      (Nat.min_le_right _ _)
  refine ⟨?_, hsave, ?_, ?_⟩
  · have h1 : (s.saveParameters).model = s.model := by
      simp only [CubismModel.saveParameters]
    have hslen : s.model.parameterCount ≤
        (s.saveParameters).savedParameters.length := by
      rw [hsave]
      simp only [List.length_append]
      omega
    simp only [CubismModel.loadParameters, h1]
    rw [show min s.model.parameterCount (s.saveParameters).savedParameters.length
        = s.model.parameterCount from Nat.min_eq_left hslen]
    rw [loadLoop_eq s.model.parameterValues (s.saveParameters).savedParameters
      s.model.parameterCount (le_of_eq hlen.symm) hslen]
    rw [hsave, ← hlen, List.take_left, List.drop_length, List.append_nil]
  · intro j hj
    rw [hload, getD_append_left, getD_take]
    · omega
    · rw [List.length_take]
      omega
  · intro j hj
    rw [hload, getD_append_right, getD_drop]
    · congr 1
      rw [List.length_take]
      omega
    · rw [List.length_take]
      omega

/-- Two parameters, one already-saved stale entry in the side buffer. -/
def c7Core : CoreModel where
  parameterIds := [10, 11]
  parameterMinimumValues := [0, 0]
  parameterMaximumValues := [1, 1]
  parameterRepeats := [0, 0]
  parameterValues := [1, 2]
  partIds := []
  partOpacities := []
  drawableIds := []
  drawableConstantFlags := []
  drawableMultiplyColors := []
  drawableScreenColors := []
  drawableParentPartIndices := []

def c7Model : CubismModel := (CubismModel.construct c7Core).initializeModel

/-- Witness for the C7 theorem at a concrete input. -/
theorem saveLoad_roundtrip_and_bounds_witness :
    c7Model.model.parameterValues.length = c7Model.model.parameterCount ∧
    ((c7Model.saveParameters).loadParameters).model.parameterValues =
      c7Model.model.parameterValues ∧
    (c7Model.loadParameters).model.parameterValues.getD 0 0 =
      c7Model.model.parameterValues.getD 0 0 :=
  ⟨by decide, (saveLoad_roundtrip_and_bounds c7Model (by decide)).1,
    (saveLoad_roundtrip_and_bounds c7Model (by decide)).2.2.2 0 (by decide)⟩

/-!  ## Claim C9 -/

/-- C9: after `initialize()` the per-drawable culling override records
    all alias the single record allocated before the drawable loop: for
    any drawable indices `i`, `j`, writing the override culling value
    through `i` changes the record observed through `j`
    (`getDrawableCulling(j)` then returns that value whenever `j`'s
    resolution takes the override path, e.g. after the override flag has
    been cascaded through any index), and writing the override flag
    through `i` changes `getOverrideFlagForDrawableCullings(j)` for
    every `j`. -/
theorem culling_records_shared_after_init (core : CoreModel)
    (s0 : CubismModel) (i j : Nat) (v : Bool)
    (hi : i < core.drawableCount) (hj : j < core.drawableCount)
    (hs : s0 = (CubismModel.construct core).initializeModel) :
    ((s0.setDrawableCulling i v).cullingDataAt j).isCulling = v ∧
    ((s0.setOverrideFlagForDrawableCullings i
        true).setDrawableCulling i v).getDrawableCulling j = v ∧
    (s0.setOverrideFlagForDrawableCullings i
        v).getOverrideFlagForDrawableCullings j = v := by
  subst hs
  simp only [CubismModel.initializeModel, CubismModel.construct,
    CubismModel.setDrawableCulling, CubismModel.setOverrideFlagForDrawableCullings,
    CubismModel.cullingDataAt, CubismModel.getDrawableCulling,
    CubismModel.getOverrideFlagForDrawableCullings,
    CubismModel.getOverrideFlagForModelCullings,
    List.nil_append, List.length_nil]
  rw [getD_replicate, if_pos hi, getD_replicate, if_pos hj]
  simp [listModify]

/-- Two drawables (ids 200, 201) with no parent part. -/
def c9Core : CoreModel where
  parameterIds := []
  parameterMinimumValues := []
  parameterMaximumValues := []
  parameterRepeats := []
  parameterValues := []
  partIds := []
  partOpacities := []
  drawableIds := [200, 201]
  drawableConstantFlags := [0, 0]
  drawableMultiplyColors := [1, 1, 1, 1, 1, 1, 1, 1]
  drawableScreenColors := [0, 0, 0, 1, 0, 0, 0, 1]
  drawableParentPartIndices := [-1, -1]

def c9Model : CubismModel := (CubismModel.construct c9Core).initializeModel

/-- Witness for the C9 theorem at a concrete input (indices 0 and 1). -/
theorem culling_records_shared_after_init_witness :
    (0 < c9Core.drawableCount ∧ 1 < c9Core.drawableCount) ∧
    (((c9Model.setDrawableCulling 0 true).cullingDataAt 1).isCulling = true ∧
      ((c9Model.setOverrideFlagForDrawableCullings 0
          true).setDrawableCulling 0 true).getDrawableCulling 1 = true ∧
      (c9Model.setOverrideFlagForDrawableCullings 0
          true).getOverrideFlagForDrawableCullings 1 = true) :=
  ⟨⟨by decide, by decide⟩,
    culling_records_shared_after_init c9Core c9Model 0 1 true
      (by decide) (by decide) rfl⟩

/-!  ## Claim C6 -/

/-- C6: the first lookup of an identifier unknown to the asset
    allocates the synthetic index `real_entity_count + insertion_order`
    and appends exactly one default value slot; a second lookup returns
    the same synthetic index with the state untouched (no further
    slot); and `getParameterCount` / `getPartCount` are unchanged. -/
theorem absent_id_allocation_idempotent (s : CubismModel) (pid qid : Nat)
    (hp1 : findIdIndex s.parameterIds s.model.parameterCount pid = none)
    (hp2 : csmMapIsExist s.notExistParameterId pid = false)
    (hq1 : findIdIndex s.partIds s.model.partCount qid = none)
    (hq2 : csmMapIsExist s.notExistPartId qid = false) :
    ((s.getParameterIndex pid).2 =
        (s.model.parameterCount : Int) + (s.notExistParameterId.length : Int) ∧
      (s.getParameterIndex pid).1.notExistParameterValues.length =
        s.notExistParameterValues.length + 1 ∧
      ((s.getParameterIndex pid).1.getParameterIndex pid).2 =
        (s.getParameterIndex pid).2 ∧
      ((s.getParameterIndex pid).1.getParameterIndex pid).1 =
        (s.getParameterIndex pid).1 ∧
      (s.getParameterIndex pid).1.getParameterCount = s.getParameterCount) ∧
    ((s.getPartIndex qid).2 =
        (s.model.partCount : Int) + (s.notExistPartId.length : Int) ∧
      (s.getPartIndex qid).1.notExistPartOpacities.length =
        s.notExistPartOpacities.length + 1 ∧
      ((s.getPartIndex qid).1.getPartIndex qid).2 = (s.getPartIndex qid).2 ∧
      ((s.getPartIndex qid).1.getPartIndex qid).1 = (s.getPartIndex qid).1 ∧
      (s.getPartIndex qid).1.getPartCount = s.getPartCount) := by
  refine ⟨⟨?_, ?_, ?_, ?_, ?_⟩, ⟨?_, ?_, ?_, ?_, ?_⟩⟩
  · simp [CubismModel.getParameterIndex, hp1, hp2]
  · simp [CubismModel.getParameterIndex, hp1, hp2, csmMapAppendKey]
  · simp [CubismModel.getParameterIndex, hp1, hp2,
      csmMapIsExist_setValue_self, csmMapGetValue_setValue_self]
  · simp [CubismModel.getParameterIndex, hp1, hp2,
      csmMapIsExist_setValue_self, csmMapGetValue_setValue_self]
  · simp [CubismModel.getParameterIndex, CubismModel.getParameterCount,
      hp1, hp2]
  · simp [CubismModel.getPartIndex, hq1, hq2]
  · simp [CubismModel.getPartIndex, hq1, hq2, csmMapAppendKey]
  · simp [CubismModel.getPartIndex, hq1, hq2,
      csmMapIsExist_setValue_self, csmMapGetValue_setValue_self]
  · simp [CubismModel.getPartIndex, hq1, hq2,
      csmMapIsExist_setValue_self, csmMapGetValue_setValue_self]
  · simp [CubismModel.getPartIndex, CubismModel.getPartCount, hq1, hq2]

/-- One parameter (id 10) and one part (id 100); handle 7 is unknown. -/
def c6Core : CoreModel where
  parameterIds := [10]
  parameterMinimumValues := [0]
  parameterMaximumValues := [1]
  parameterRepeats := [0]
  parameterValues := [0]
  partIds := [100]
  partOpacities := [1]
  drawableIds := []
  drawableConstantFlags := []
  drawableMultiplyColors := []
  drawableScreenColors := []
  drawableParentPartIndices := []

def c6Model : CubismModel := (CubismModel.construct c6Core).initializeModel

/-- Witness for the C6 theorem at a concrete input (unknown handle 7). -/
theorem absent_id_allocation_idempotent_witness :
    (findIdIndex c6Model.parameterIds c6Model.model.parameterCount 7 = none ∧
      csmMapIsExist c6Model.notExistParameterId 7 = false ∧
      findIdIndex c6Model.partIds c6Model.model.partCount 7 = none ∧
      csmMapIsExist c6Model.notExistPartId 7 = false) ∧
    (c6Model.getParameterIndex 7).2 =
      (c6Model.model.parameterCount : Int) +
        (c6Model.notExistParameterId.length : Int) ∧
    ((c6Model.getParameterIndex 7).1.getParameterIndex 7).2 =
      (c6Model.getParameterIndex 7).2 ∧
    (c6Model.getParameterIndex 7).1.getParameterCount =
      c6Model.getParameterCount :=
  ⟨⟨by decide, by decide, by decide, by decide⟩,
    (absent_id_allocation_idempotent c6Model 7 7 (by decide) (by decide)
      (by decide) (by decide)).1.1,
    (absent_id_allocation_idempotent c6Model 7 7 (by decide) (by decide)
      (by decide) (by decide)).1.2.2.1,
    (absent_id_allocation_idempotent c6Model 7 7 (by decide) (by decide)
      (by decide) (by decide)).1.2.2.2.2⟩

/-!  ## Claim C4 -/

/-- The wrap formula exactly as the claim states it (spec §4.4 step 3):
    `v > max` stores `min + ((v - max) mod span)`, `v < min` stores
    `max - ((min - v) mod span)`, with the exceeded bound as fallback
    when the modulo is not finite (degenerate span); in-range values
    pass through. -/
def repeatSpecValue (minValue maxValue v : ℚ) : ℚ :=
  if maxValue < v then
    if maxValue - minValue = 0 then maxValue
    else minValue + qmod (v - maxValue) (maxValue - minValue)
  else if v < minValue then
    if maxValue - minValue = 0 then minValue
    else maxValue - qmod (minValue - v) (maxValue - minValue)
  else v

theorem getParameterRepeatValue_eq_spec (s : CubismModel) (i : Nat) (v : ℚ)
    (hex : csmMapIsExist s.notExistParameterValues (i : Int) = false)
    (hmm : s.model.parameterMinimumValues.getD i 0 ≤
      s.model.parameterMaximumValues.getD i 0) :
    s.getParameterRepeatValue i v =
      repeatSpecValue (s.model.parameterMinimumValues.getD i 0)
        (s.model.parameterMaximumValues.getD i 0) v := by
  have htn : ((i : Int)).toNat = i := Int.toNat_natCast i
  set minv := s.model.parameterMinimumValues.getD i 0 with hminv
  set maxv := s.model.parameterMaximumValues.getD i 0 with hmaxv
  simp only [CubismModel.getParameterRepeatValue, hex, Bool.false_eq_true,
    if_false, htn, cmMod, ← hminv, ← hmaxv]
  by_cases h1 : maxv < v
  · by_cases h0 : maxv - minv = 0
    · rw [if_pos h1, if_pos h0]
      dsimp only
      rw [if_neg (not_lt.mpr hmm)]
      simp only [repeatSpecValue, if_pos h1, if_pos h0]
    · rw [if_pos h1, if_neg h0]
      dsimp only
      have hspan : 0 < maxv - minv :=
        lt_of_le_of_ne (sub_nonneg.mpr hmm) (Ne.symm h0)
      have hq : 0 ≤ qmod (v - maxv) (maxv - minv) := qmod_nonneg _ _ hspan
      rw [if_neg (not_lt.mpr (le_add_of_nonneg_right hq))]
      simp only [repeatSpecValue, if_pos h1, if_neg h0]
  · rw [if_neg h1]
    by_cases h2 : v < minv
    · rw [if_pos h2]
      by_cases h0 : maxv - minv = 0
      · rw [if_pos h0]
        dsimp only
        simp only [repeatSpecValue, if_neg h1, if_pos h2, if_pos h0]
      · rw [if_neg h0]
        dsimp only
        simp only [repeatSpecValue, if_neg h1, if_pos h2, if_neg h0]
    · rw [if_neg h2]
      simp only [repeatSpecValue, if_neg h1, if_neg h2]

/-- C4: with weight `1.0`, `setParameterValueByIndex` stores, for an
    in-asset parameter, the wrap of the value per the claim's modulo
    formula (with the exceeded bound as fallback on a degenerate span)
    when repeat policy applies, and the clamp
    `max(min(v, max), min)` when it does not. -/
theorem setParameterValue_weight1_repeat_clamp (s : CubismModel) (i : Nat)
    (v : ℚ)
    (hex : csmMapIsExist s.notExistParameterValues (i : Int) = false)
    (hlen : i < s.model.parameterValues.length)
    (hmm : s.model.parameterMinimumValues.getD i 0 ≤
      s.model.parameterMaximumValues.getD i 0) :
    (s.setParameterValueByIndex i v 1).model.parameterValues.getD i 0 =
      if s.isRepeat i then
        repeatSpecValue (s.model.parameterMinimumValues.getD i 0)
          (s.model.parameterMaximumValues.getD i 0) v
      else
        max (min v (s.model.parameterMaximumValues.getD i 0))
          (s.model.parameterMinimumValues.getD i 0) := by
  have htn : ((i : Int)).toNat = i := Int.toNat_natCast i
  simp only [CubismModel.setParameterValueByIndex, hex, Bool.false_eq_true,
    if_false, if_pos (rfl : (1 : ℚ) = 1),
    if_pos (Int.natCast_nonneg i), htn]
  rw [getD_set_self _ _ _ _ hlen]
  by_cases hr : s.isRepeat (i : Int)
  · rw [if_pos hr, if_pos hr]
    exact getParameterRepeatValue_eq_spec s i v hex hmm
  · rw [if_neg hr, if_neg hr]
    simp only [CubismModel.getParameterClampValue, hex, Bool.false_eq_true,
      if_false, htn, cmClamp]
    simp

/-- One parameter (id 10) with range `[0, 10]`. -/
def c4Core : CoreModel where
  parameterIds := [10]
  parameterMinimumValues := [0]
  parameterMaximumValues := [10]
  parameterRepeats := [0]
  parameterValues := [0]
  partIds := []
  partOpacities := []
  drawableIds := []
  drawableConstantFlags := []
  drawableMultiplyColors := []
  drawableScreenColors := []
  drawableParentPartIndices := []

/-- Freshly initialized: the override path is taken (model-wide flag
    defaults to `true`) with `isParameterRepeated = false`, so the
    clamp policy applies. -/
def c4Clamp : CubismModel := (CubismModel.construct c4Core).initializeModel

/-- Same model with the per-parameter repeat value set: repeat policy
    applies. -/
def c4Rep : CubismModel := c4Clamp.setRepeatFlagForParameterRepeat 0 true

/-- Witness for the C4 theorem: with `min=0, max=10`, setting `13` at
    weight `1.0` yields `3` under repeat and `10` under clamp. -/
theorem setParameterValue_weight1_repeat_clamp_witness :
    (csmMapIsExist c4Rep.notExistParameterValues (0 : Int) = false ∧
      0 < c4Rep.model.parameterValues.length ∧
      c4Rep.model.parameterMinimumValues.getD 0 0 ≤
        c4Rep.model.parameterMaximumValues.getD 0 0) ∧
    ((c4Rep.setParameterValueByIndex 0 13 1).model.parameterValues.getD 0 0 =
      if c4Rep.isRepeat 0 then
        repeatSpecValue (c4Rep.model.parameterMinimumValues.getD 0 0)
          (c4Rep.model.parameterMaximumValues.getD 0 0) 13
      else
        max (min 13 (c4Rep.model.parameterMaximumValues.getD 0 0))
          (c4Rep.model.parameterMinimumValues.getD 0 0)) ∧
    (c4Rep.setParameterValueByIndex 0 13 1).model.parameterValues.getD 0 0 = 3 ∧
    (c4Clamp.setParameterValueByIndex 0 13 1).model.parameterValues.getD 0 0 =
      10 :=
  ⟨⟨by decide, by decide, by decide⟩,
    setParameterValue_weight1_repeat_clamp c4Rep 0 13 (by decide) (by decide)
      (by decide),
    by
      show (c4Rep.setParameterValueByIndex ((0 : Nat) : Int)
        13 1).model.parameterValues.getD 0 0 = 3
      rw [setParameterValue_weight1_repeat_clamp c4Rep 0 13 (by decide)
        (by decide) (by decide)]
      rw [show c4Rep.isRepeat ((0 : Nat) : Int) = true from by decide]
      rw [show c4Rep.model.parameterMinimumValues.getD 0 0 = 0 from rfl,
        show c4Rep.model.parameterMaximumValues.getD 0 0 = 10 from rfl]
      norm_num [repeatSpecValue, qmod],
    by
      show (c4Clamp.setParameterValueByIndex ((0 : Nat) : Int)
        13 1).model.parameterValues.getD 0 0 = 10
      rw [setParameterValue_weight1_repeat_clamp c4Clamp 0 13 (by decide)
        (by decide) (by decide)]
      rw [show c4Clamp.isRepeat ((0 : Nat) : Int) = false from by decide]
      rw [show c4Clamp.model.parameterMinimumValues.getD 0 0 = 0 from rfl,
        show c4Clamp.model.parameterMaximumValues.getD 0 0 = 10 from rfl]
      norm_num⟩

/-!  ## Claim C10 -/

theorem findIdIndex_lt (ids : List Nat) (c id i : Nat)
    (h : findIdIndex ids c id = some i) : i < c := by
  unfold findIdIndex at h
  exact List.mem_range.mp (List.mem_of_find?_eq_some h)

/-- C10: `getPartIndex` never returns a negative index (unknown part
    identifiers receive synthetic indices), so the `index < 0` fallback
    branches of `setPartOpacityById` and `getPartOpacityById` are
    unreachable, and for every part identifier — known to the asset or
    not — `setPartOpacityById(id, o)` followed by
    `getPartOpacityById(id)` returns `o`.  The hypotheses are the state
    invariants maintained by the allocation path: stored synthetic
    indices are non-negative and each owns a slot in the absent-part
    opacity map, and the snapshot opacity array has `partCount`
    entries. -/
theorem getPartIndex_nonneg_and_opacity_roundtrip (s : CubismModel)
    (pid : Nat) (o : ℚ)
    (hvals : ∀ kv ∈ s.notExistPartId, 0 ≤ kv.2)
    (hops : ∀ kv ∈ s.notExistPartId,
      csmMapIsExist s.notExistPartOpacities kv.2 = true)
    (hlen : s.model.partOpacities.length = s.model.partCount) :
    0 ≤ (s.getPartIndex pid).2 ∧
    ((s.setPartOpacityById pid o).getPartOpacityById pid).2 = o := by
  cases hfind : findIdIndex s.partIds s.model.partCount pid with
  | some p =>
    have hp : p < s.model.partCount := findIdIndex_lt _ _ _ _ hfind
    have hpair : s.getPartIndex pid = (s, (p : Int)) := by
      simp [CubismModel.getPartIndex, hfind]
    have hnotneg : ¬ ((p : Int) < 0) := not_lt.mpr (Int.natCast_nonneg p)
    refine ⟨by rw [hpair]; exact Int.natCast_nonneg p, ?_⟩
    by_cases hex : csmMapIsExist s.notExistPartOpacities ((p : Int)) = true
    · have hset : s.setPartOpacityById pid o =
          { s with notExistPartOpacities :=
              csmMapSetValue s.notExistPartOpacities ((p : Int)) o } := by
        simp [CubismModel.setPartOpacityById, hpair, hnotneg,
          CubismModel.setPartOpacityByIndex, hex]
      rw [hset]
      have hfind1 : findIdIndex
          ({ s with notExistPartOpacities :=
              csmMapSetValue s.notExistPartOpacities ((p : Int)) o
            : CubismModel }).partIds s.model.partCount pid = some p := hfind
      simp [CubismModel.getPartOpacityById, CubismModel.getPartIndex, hfind1,
        hnotneg, CubismModel.getPartOpacityByIndex,
        csmMapIsExist_setValue_self, csmMapGetValue_setValue_self]
    · have hset : s.setPartOpacityById pid o =
          { s with model :=
              { s.model with partOpacities := s.model.partOpacities.set p o } } := by
        simp [CubismModel.setPartOpacityById, hpair, hnotneg,
          CubismModel.setPartOpacityByIndex, hex,
          if_pos (Int.natCast_nonneg p)]
      rw [hset]
      have hfind1 : findIdIndex s.partIds
          ({ s with model :=
              { s.model with partOpacities := s.model.partOpacities.set p o }
            : CubismModel }).model.partCount pid = some p := hfind
      have hex1 : csmMapIsExist s.notExistPartOpacities ((p : Int)) = false :=
        Bool.not_eq_true _ ▸ (Bool.eq_false_iff.mpr hex)
      simp [CubismModel.getPartOpacityById, CubismModel.getPartIndex, hfind1,
        hnotneg, CubismModel.getPartOpacityByIndex, hex1]
      have hgd := getD_set_self s.model.partOpacities p o 0 (by omega)
      simpa [List.getD_eq_getElem?_getD] using hgd
  | none =>
    by_cases hmap : csmMapIsExist s.notExistPartId pid = true
    · obtain ⟨kv, hkvmem, hkv1, hkvget⟩ := csmMapIsExist_exists_mem _ _ hmap
      have hidx0 : 0 ≤ kv.2 := hvals kv hkvmem
      have hexo : csmMapIsExist s.notExistPartOpacities kv.2 = true :=
        hops kv hkvmem
      have hnotneg : ¬ (kv.2 < 0) := not_lt.mpr hidx0
      have hpair : s.getPartIndex pid = (s, kv.2) := by
        simp [CubismModel.getPartIndex, hfind, hmap, hkvget 0]
      refine ⟨by rw [hpair]; exact hidx0, ?_⟩
      have hset : s.setPartOpacityById pid o =
          { s with notExistPartOpacities :=
              csmMapSetValue s.notExistPartOpacities kv.2 o } := by
        simp [CubismModel.setPartOpacityById, hpair, hnotneg,
          CubismModel.setPartOpacityByIndex, hexo]
      rw [hset]
      have hfind1 : findIdIndex
          ({ s with notExistPartOpacities :=
              csmMapSetValue s.notExistPartOpacities kv.2 o
            : CubismModel }).partIds s.model.partCount pid = none := hfind
      simp [CubismModel.getPartOpacityById, CubismModel.getPartIndex, hfind1,
        hmap, hkvget 0, hnotneg, CubismModel.getPartOpacityByIndex,
        csmMapIsExist_setValue_self, csmMapGetValue_setValue_self]
    · have hidx0 : (0 : Int) ≤
          (s.model.partCount : Int) + (s.notExistPartId.length : Int) := by
        positivity
      have hnotneg : ¬ ((s.model.partCount : Int) +
          (s.notExistPartId.length : Int) < 0) := not_lt.mpr hidx0
      have hpair : s.getPartIndex pid =
          ({ s with
              notExistPartId := csmMapSetValue s.notExistPartId pid
                ((s.model.partCount : Int) + (s.notExistPartId.length : Int))
              notExistPartOpacities := csmMapAppendKey s.notExistPartOpacities
                ((s.model.partCount : Int) + (s.notExistPartId.length : Int)) 0 },
            (s.model.partCount : Int) + (s.notExistPartId.length : Int)) := by
        simp [CubismModel.getPartIndex, hfind, hmap]
      refine ⟨by rw [hpair]; exact hidx0, ?_⟩
      have hexapp : csmMapIsExist
          (csmMapAppendKey s.notExistPartOpacities
            ((s.model.partCount : Int) + (s.notExistPartId.length : Int)) 0)
          ((s.model.partCount : Int) + (s.notExistPartId.length : Int)) =
          true := by
        rw [csmMapAppendKey, csmMapIsExist_append,
          csmMapIsExist_singleton_self, Bool.or_true]
      have hset : s.setPartOpacityById pid o =
          { s with
              notExistPartId := csmMapSetValue s.notExistPartId pid
                ((s.model.partCount : Int) + (s.notExistPartId.length : Int))
              notExistPartOpacities := csmMapSetValue
                (csmMapAppendKey s.notExistPartOpacities
                  ((s.model.partCount : Int) + (s.notExistPartId.length : Int)) 0)
                ((s.model.partCount : Int) + (s.notExistPartId.length : Int))
                o } := by
        rw [CubismModel.setPartOpacityById, hpair]
        simp [hnotneg, CubismModel.setPartOpacityByIndex, hexapp]
      rw [hset]
      have hfind1 : findIdIndex
          ({ s with
              notExistPartId := csmMapSetValue s.notExistPartId pid
                ((s.model.partCount : Int) + (s.notExistPartId.length : Int))
              notExistPartOpacities := csmMapSetValue
                (csmMapAppendKey s.notExistPartOpacities
                  ((s.model.partCount : Int) + (s.notExistPartId.length : Int)) 0)
                ((s.model.partCount : Int) + (s.notExistPartId.length : Int))
                o : CubismModel }).partIds s.model.partCount pid = none := hfind
      simp [CubismModel.getPartOpacityById, CubismModel.getPartIndex, hfind1,
        hnotneg, CubismModel.getPartOpacityByIndex,
        csmMapIsExist_setValue_self, csmMapGetValue_setValue_self]

/-- One part (id 100); handle 7 is unknown to the asset. -/
def c10Core : CoreModel where
  parameterIds := []
  parameterMinimumValues := []
  parameterMaximumValues := []
  parameterRepeats := []
  parameterValues := []
  partIds := [100]
  partOpacities := [1]
  drawableIds := []
  drawableConstantFlags := []
  drawableMultiplyColors := []
  drawableScreenColors := []
  drawableParentPartIndices := []

def c10Model : CubismModel := (CubismModel.construct c10Core).initializeModel

/-- Witness for the C10 theorem at a concrete input (the unknown part
    identifier 7 and opacity 1/2). -/
theorem getPartIndex_nonneg_and_opacity_roundtrip_witness :
    ((∀ kv ∈ c10Model.notExistPartId, 0 ≤ kv.2) ∧
      (∀ kv ∈ c10Model.notExistPartId,
        csmMapIsExist c10Model.notExistPartOpacities kv.2 = true) ∧
      c10Model.model.partOpacities.length = c10Model.model.partCount) ∧
    0 ≤ (c10Model.getPartIndex 7).2 ∧
    ((c10Model.setPartOpacityById 7 (1 / 2)).getPartOpacityById 7).2 = 1 / 2 :=
  ⟨⟨by decide, by decide, by decide⟩,
    getPartIndex_nonneg_and_opacity_roundtrip c10Model 7 (1 / 2) (by decide)
      (by decide) (by decide)⟩

/-- Witness for the C2 amended theorem at a concrete input. -/
theorem isRepeat_fresh_and_after_clearing_override_witness :
    ((CubismModel.construct c2Core).initializeModel).isRepeat 0 = false ∧
    (((CubismModel.construct
        c2Core).initializeModel).setOverrideFlagForModelParameterRepeat
        false).isRepeat 0 = (c2Core.parameterRepeats.getD 0 0 != 0) :=
  isRepeat_fresh_and_after_clearing_override c2Core 0

/-- An empty asset, enough to instantiate the C8 equations. -/
def c8Core : CoreModel where
  parameterIds := []
  parameterMinimumValues := []
  parameterMaximumValues := []
  parameterRepeats := []
  parameterValues := []
  partIds := []
  partOpacities := []
  drawableIds := []
  drawableConstantFlags := []
  drawableMultiplyColors := []
  drawableScreenColors := []
  drawableParentPartIndices := []

/-- Witness for the C8 theorem at a concrete input. -/
theorem add_multiply_defined_by_set_witness :
    (CubismModel.construct c8Core).addParameterValueByIndex 0 2 1 =
      (CubismModel.construct c8Core).setParameterValueByIndex 0
        ((CubismModel.construct c8Core).getParameterValueByIndex 0 + 2 * 1) ∧
    (CubismModel.construct c8Core).multiplyParameterValueByIndex 0 2 1 =
      (CubismModel.construct c8Core).setParameterValueByIndex 0
        ((CubismModel.construct c8Core).getParameterValueByIndex 0 *
          (1 + (2 - 1) * 1)) :=
  add_multiply_defined_by_set (CubismModel.construct c8Core) 0 2 1
